import Mathlib

/-!
Verification of the data-validation core of `plataforma-qualidade-dados`
(`src/validation/validator.py`, function `run_data_validations`).

Shallow embedding choices:
* A transaction record mirrors the `transactions` schema. `amount` is a
  nullable fixed-point decimal, embedded as an `Option Int` of centavos
  (the table stores a signed two-decimal amount); `transaction_date` is a
  calendar date embedded as an `Option`-free `Int` day number, compared
  with the run's `today` (SQL `CURRENT_DATE`); nullable text columns are
  `Option String`.
* `run_data_validations` issues a fixed sequence of SQL statements over one
  connection: `TRUNCATE log_table`, a commit, then for each of the five
  rules a `SELECT` on the record table, one `INSERT` into the log table per
  matching row, and a commit.  We embed that statement sequence as a list
  of `DbOp` values and execute it against a connection state that separates
  the committed log from the in-transaction view (`tlog`), so that
  per-rule commits and rollback-on-failure are faithful.
* A store failure is modelled by the index of the first statement whose
  execution raises (`failAt`).  When it raises, the open transaction is
  rolled back and the `with engine.connect()` block is aborted; the
  surrounding `except SQLAlchemyError` / `except Exception` blocks
  (validator.py lines 148-155) log the error and fall through, so the
  Python function returns `None` normally either way.  `run_data_validations`
  therefore returns a pair: the exception escaping to the caller (always
  `none` in this code) and the connection state left behind.
-/

/-- One row of the `transactions` table (the Record Store schema). -/
structure Record where
  transaction_id : String
  account_id : Option String
  transaction_date : Int
  transaction_time : Int
  amount : Option Int
  currency : String
  transaction_type : String
  merchant_name : String
  category : Option String
  status : String
  deriving Repr, DecidableEq

/-- One row of the `data_validation_logs` table (the Violation Log schema,
identity key omitted). -/
structure Violation where
  transaction_id : String
  validation_rule : String
  error_message : String
  deriving Repr, DecidableEq

/-- The five hardcoded validation rules of `run_data_validations`, in
source order. -/
inductive RuleId where
  | amountNulo
  | accountIdNulo
  | amountNegativo
  | dataFutura
  | categoriaInvalida
  deriving Repr, DecidableEq

/-- The fixed evaluation order of the five rules (validator.py top to
bottom). -/
def ruleOrder : List RuleId :=
  [RuleId.amountNulo, RuleId.accountIdNulo, RuleId.amountNegativo,
   RuleId.dataFutura, RuleId.categoriaInvalida]

/-- The hardcoded list `valid_categories` (validator.py line 121). -/
def valid_categories : List String :=
  ["ALIMENTACAO", "COMPRAS", "SERVICOS", "TRANSPORTES", "SAUDE", "LAZER"]

/-- Python renders `None` as the string `None` when interpolated into an
f-string; a present string is interpolated verbatim. -/
def pyStrOpt : Option String → String
  | none => "None"
  | some s => s

/-- Rendering of a two-decimal amount stored in centavos, as the backend
returns it and the f-string prints it (e.g. `-5000` renders `-50.00`). -/
def renderAmount (cents : Int) : String :=
  (if cents < 0 then "-" else "") ++
    toString (cents.natAbs / 100) ++ "." ++
    (if cents.natAbs % 100 < 10 then "0" else "") ++ toString (cents.natAbs % 100)

/-- Rendering of a nullable amount column value in an f-string. -/
def renderAmountOpt : Option Int → String
  | none => "None"
  | some a => renderAmount a

/-- Rendering of a date value in an f-string; dates are embedded as day
numbers, so we only fix that the rendering is injective in the date. -/
def renderDate (d : Int) : String := toString d

/-- Log row written by rule 1 (validator.py lines 44-48). -/
def amountNuloViolation (r : Record) : Violation :=
  ⟨r.transaction_id, "Amount Nulo", "Valor da transação (amount) é nulo."⟩

/-- Log row written by rule 2 (validator.py lines 66-70). -/
def accountIdNuloViolation (r : Record) : Violation :=
  ⟨r.transaction_id, "Account ID Nulo", "ID da conta (account_id) é nulo."⟩

/-- Log row written by rule 3 (validator.py lines 89-93). -/
def amountNegativoViolation (r : Record) : Violation :=
  ⟨r.transaction_id, "Amount Negativo",
    "Valor da transação (amount) é negativo: " ++ renderAmountOpt r.amount ++ "."⟩

/-- Log row written by rule 4 (validator.py lines 111-115). -/
def dataFuturaViolation (r : Record) : Violation :=
  ⟨r.transaction_id, "Data Futura",
    "Data da transação (transaction_date) está no futuro: " ++
      renderDate r.transaction_date ++ "."⟩

/-- Log row written by rule 5 (validator.py lines 139-143); a null category
interpolates as `None` between the literal single quotes of the template. -/
def categoriaInvalidaViolation (r : Record) : Violation :=
  ⟨r.transaction_id, "Categoria Inválida",
    "Categoria da transação (category) é inválida: \x27" ++
      pyStrOpt r.category ++ "\x27."⟩

/-- Predicate of rule 3's query `WHERE amount < 0`: a SQL NULL amount
compares to NULL and is not selected. -/
def amountNegP (r : Record) : Bool :=
  match r.amount with
  | none => false
  | some a => decide (a < 0)

/-- Predicate of rule 5's query
`WHERE category NOT IN (...) OR category IS NULL` under SQL three-valued
logic: a null category is selected by the second disjunct, a non-null one
exactly when it is outside `valid_categories`. -/
def invalidCategoryP (r : Record) : Bool :=
  match r.category with
  | none => true
  | some c => !(valid_categories.contains c)

/-- The rows each rule's `SELECT` matches and the log rows it inserts, per
rule, over the record table contents `recs` with `CURRENT_DATE = today`. -/
def ruleViolations (recs : List Record) (today : Int) : RuleId → List Violation
  | RuleId.amountNulo =>
      (recs.filter fun r => r.amount.isNone).map amountNuloViolation
  | RuleId.accountIdNulo =>
      (recs.filter fun r => r.account_id.isNone).map accountIdNuloViolation
  | RuleId.amountNegativo =>
      (recs.filter amountNegP).map amountNegativoViolation
  | RuleId.dataFutura =>
      (recs.filter fun r => decide (today < r.transaction_date)).map dataFuturaViolation
  | RuleId.categoriaInvalida =>
      (recs.filter invalidCategoryP).map categoriaInvalidaViolation

/-- The SQL statements `run_data_validations` sends over its connection.
`truncateLog` is the `TRUNCATE log_table RESTART IDENTITY`, `queryRule r`
is rule `r`'s `SELECT` on the record table, `insertLog v` is one
`INSERT INTO log_table`, and `commit` is `connection.commit()`. -/
inductive DbOp where
  | truncateLog
  | commit
  | queryRule (r : RuleId)
  | insertLog (v : Violation)
  deriving Repr, DecidableEq

/-- The two tables the validator touches. -/
inductive StoreTable where
  | recordTable
  | logTable
  deriving Repr, DecidableEq

/-- Which table a statement touches (`commit` touches none). -/
def DbOp.touches : DbOp → Option StoreTable
  | DbOp.truncateLog => some StoreTable.logTable
  | DbOp.commit => none
  | DbOp.queryRule _ => some StoreTable.recordTable
  | DbOp.insertLog _ => some StoreTable.logTable

/-- Whether a statement writes to the store (`TRUNCATE` and `INSERT` do;
a `SELECT` and a commit do not). -/
def DbOp.isWrite : DbOp → Bool
  | DbOp.truncateLog => true
  | DbOp.insertLog _ => true
  | _ => false

/-- State of the database as seen through the validator's connection:
the record table, the committed log table, and the connection's
in-transaction view `tlog` of the log table (uncommitted work included). -/
structure ConnState where
  records : List Record
  committedLog : List Violation
  tlog : List Violation
  deriving Repr, DecidableEq

/-- Effect of one statement on the connection state.  `TRUNCATE` and
`INSERT` act on the in-transaction view; `commit` makes it durable; a
`SELECT` changes nothing. -/
def applyOp (s : ConnState) : DbOp → ConnState
  | DbOp.truncateLog => { s with tlog := [] }
  | DbOp.commit => { s with committedLog := s.tlog }
  | DbOp.queryRule _ => s
  | DbOp.insertLog _v => { s with tlog := s.tlog ++ [_v] }

/-- Closing the connection after a failure discards uncommitted work. -/
def rollback (s : ConnState) : ConnState := { s with tlog := s.committedLog }

/-- Runs a statement list starting at global statement index `i`; the
statement at index `failAt` (if reached) raises, rolling back the open
transaction and aborting the rest of the sequence. -/
def execFrom (i : Nat) (failAt : Option Nat) (s : ConnState) :
    List DbOp → Except ConnState ConnState
  | [] => Except.ok s
  | op :: rest =>
      if failAt = some i then Except.error (rollback s)
      else execFrom (i + 1) failAt (applyOp s op) rest

/-- The statement block one rule contributes: its `SELECT`, one `INSERT`
per matching row, then a commit (validator.py, per-rule structure). -/
def ruleOps (recs : List Record) (today : Int) (r : RuleId) : List DbOp :=
  DbOp.queryRule r :: ((ruleViolations recs today r).map DbOp.insertLog ++ [DbOp.commit])

/-- The full statement trace of one run: clear the log, commit, then the
five rule blocks in `ruleOrder` (validator.py lines 26-145). -/
def runOps (recs : List Record) (today : Int) : List DbOp :=
  DbOp.truncateLog :: DbOp.commit :: ((ruleOrder.map (ruleOps recs today)).flatten)

/-- Body of the `try:` block: open a connection (whose transaction view
starts at the committed state) and execute the statement trace. -/
def runBody (s : ConnState) (today : Int) (failAt : Option Nat) :
    Except ConnState ConnState :=
  execFrom 0 failAt (rollback s) (runOps s.records today)

/-- The validator entry point.  The first component is the exception that
escapes to the caller: the `except SQLAlchemyError` / `except Exception`
blocks (validator.py lines 148-155) catch every failure, log it and fall
through, so the function returns normally — `none` — on both paths. -/
def run_data_validations (s : ConnState) (today : Int) (failAt : Option Nat) :
    Option String × ConnState :=
  match runBody s today failAt with
  | Except.ok s1 => (none, s1)
  | Except.error s1 => (none, s1)

/-- All log rows a completed run inserts, in insertion order. -/
def logAll (recs : List Record) (today : Int) : List Violation :=
  (ruleOrder.map (ruleViolations recs today)).flatten

/-- Log rows inserted by the first `k` rules, in insertion order. -/
def logUpTo (recs : List Record) (today : Int) (k : Nat) : List Violation :=
  ((ruleOrder.take k).map (ruleViolations recs today)).flatten

/-- Global index of the first statement of rule block `k` in the run trace
(the trace opens with the truncate and its commit at indices 0 and 1). -/
def segStart (recs : List Record) (today : Int) (k : Nat) : Nat :=
  2 + (((ruleOrder.take k).map (ruleOps recs today)).flatten).length

/-- The log-table contents after a completed run. -/
def finalLog (recs : List Record) (today : Int) : List Violation :=
  (run_data_validations ⟨recs, [], []⟩ today none).2.committedLog

/-- Extracts the rule of a `SELECT` statement, skipping everything else. -/
def queryOf : DbOp → Option RuleId
  | DbOp.queryRule r => some r
  | _ => none

/-- Sample record with a null amount and all other fields valid. -/
def sampleRec1 : Record :=
  ⟨"t1", some "a1", 100, 600, none, "BRL", "PURCHASE", "Loja A", some "COMPRAS", "CONCLUIDA"⟩

/-- Sample record with a null account_id, a negative amount of -50.00 and a
null category. -/
def sampleRec2 : Record :=
  ⟨"t2", none, 100, 660, some (-5000), "BRL", "WITHDRAWAL", "Caixa C", none, "CONCLUIDA"⟩

/-- Sample record with a future date and an unrecognised category. -/
def sampleRec3 : Record :=
  ⟨"t3", some "a3", 200, 720, some 1000, "BRL", "PURCHASE", "Loja F",
    some "CATEGORIA_INVALIDA", "CONCLUIDA"⟩

/-- Sample record-store contents used to instantiate the theorems. -/
def sampleRecs : List Record := [sampleRec1, sampleRec2, sampleRec3]

/-- Sample database state: the sample records and an empty, committed log. -/
def sampleState : ConnState := ⟨sampleRecs, [], []⟩

/-! ### Execution lemmas -/

theorem execFrom_none (l : List DbOp) : ∀ (i : Nat) (s : ConnState),
    execFrom i none s l = Except.ok (l.foldl applyOp s) := by
  induction l with
  | nil => intro i s; rfl
  | cons op rest ih =>
      intro i s
      simp [execFrom, List.foldl_cons, ih]

theorem execFrom_miss_low (l : List DbOp) : ∀ (i j : Nat) (s : ConnState),
    j < i → execFrom i (some j) s l = Except.ok (l.foldl applyOp s) := by
  induction l with
  | nil => intro i j s _; rfl
  | cons op rest ih =>
      intro i j s hj
      have hne : (some j : Option Nat) ≠ some i := by
        intro h; cases h; omega
      simp [execFrom, hne, List.foldl_cons]
      exact ih (i + 1) j (applyOp s op) (by omega)

theorem execFrom_miss_high (l : List DbOp) : ∀ (i j : Nat) (s : ConnState),
    i + l.length ≤ j → execFrom i (some j) s l = Except.ok (l.foldl applyOp s) := by
  induction l with
  | nil => intro i j s _; rfl
  | cons op rest ih =>
      intro i j s hj
      simp only [List.length_cons] at hj
      have hne : (some j : Option Nat) ≠ some i := by
        intro h; cases h; omega
      simp [execFrom, hne, List.foldl_cons]
      exact ih (i + 1) j (applyOp s op) (by omega)

theorem execFrom_hit (l : List DbOp) : ∀ (i j : Nat) (s : ConnState),
    i ≤ j → j < i + l.length →
    execFrom i (some j) s l =
      Except.error (rollback ((l.take (j - i)).foldl applyOp s)) := by
  induction l with
  | nil => intro i j s h1 h2; simp at h2; omega
  | cons op rest ih =>
      intro i j s h1 h2
      by_cases hji : j = i
      · subst hji
        simp [execFrom, Nat.sub_self, List.take_zero, List.foldl_nil]
      · have hne : (some j : Option Nat) ≠ some i := by
          intro h; cases h; exact hji rfl
        have hij : i + 1 ≤ j := by omega
        simp only [List.length_cons] at h2
        rw [execFrom, if_neg hne, ih (i + 1) j (applyOp s op) hij (by omega)]
        have htk : j - i = (j - (i + 1)) + 1 := by omega
        rw [htk, List.take_succ_cons, List.foldl_cons]

theorem exec_append (l1 l2 : List DbOp) (i : Nat) (f : Option Nat) (s : ConnState) :
    execFrom i f s (l1 ++ l2) =
      match execFrom i f s l1 with
      | Except.error e => Except.error e
      | Except.ok s1 => execFrom (i + l1.length) f s1 l2 := by
  induction l1 generalizing i s with
  | nil => simp [execFrom]
  | cons op rest ih =>
      by_cases hf : f = some i
      · subst hf; simp [execFrom]
      · simp only [List.cons_append, execFrom, if_neg hf, List.length_cons,
          List.append_eq]
        rw [ih (i + 1) (applyOp s op)]
        have : i + 1 + rest.length = i + (rest.length + 1) := by omega
        rw [this]

theorem exec_append_ok (l1 l2 : List DbOp) (i : Nat) (f : Option Nat)
    (s s1 : ConnState) (h : execFrom i f s l1 = Except.ok s1) :
    execFrom i f s (l1 ++ l2) = execFrom (i + l1.length) f s1 l2 := by
  rw [exec_append, h]

theorem exec_append_err (l1 l2 : List DbOp) (i : Nat) (f : Option Nat)
    (s e : ConnState) (h : execFrom i f s l1 = Except.error e) :
    execFrom i f s (l1 ++ l2) = Except.error e := by
  rw [exec_append, h]

theorem foldl_records (l : List DbOp) : ∀ (s : ConnState),
    (l.foldl applyOp s).records = s.records := by
  induction l with
  | nil => intro s; rfl
  | cons op rest ih =>
      intro s
      rw [List.foldl_cons, ih]
      cases op <;> rfl

theorem foldl_no_commit (l : List DbOp) : ∀ (s : ConnState),
    DbOp.commit ∉ l → (l.foldl applyOp s).committedLog = s.committedLog := by
  induction l with
  | nil => intro s _; rfl
  | cons op rest ih =>
      intro s hmem
      rw [List.foldl_cons, ih _ (fun h => hmem (List.mem_cons_of_mem _ h))]
      cases op with
      | commit => exact absurd (List.mem_cons_self _ _) hmem
      | truncateLog => rfl
      | queryRule r => rfl
      | insertLog v => rfl

theorem foldl_insert_block (vs : List Violation) : ∀ (s : ConnState),
    ((vs.map DbOp.insertLog).foldl applyOp s) =
      { s with tlog := s.tlog ++ vs } := by
  induction vs with
  | nil => intro s; simp
  | cons v rest ih =>
      intro s
      simp only [List.map_cons, List.foldl_cons, applyOp, ih, List.append_assoc,
        List.singleton_append]

theorem foldl_ruleOps (recs : List Record) (today : Int) (r : RuleId) (s : ConnState) :
    ((ruleOps recs today r).foldl applyOp s) =
      ⟨s.records, s.tlog ++ ruleViolations recs today r,
        s.tlog ++ ruleViolations recs today r⟩ := by
  simp only [ruleOps, List.foldl_cons, List.foldl_append, applyOp, foldl_insert_block,
    List.foldl_nil]

theorem ruleOps_length (recs : List Record) (today : Int) (r : RuleId) :
    (ruleOps recs today r).length = (ruleViolations recs today r).length + 2 := by
  simp [ruleOps]

theorem commit_not_in_front (recs : List Record) (today : Int) (r : RuleId) (m : Nat)
    (hm : m < (ruleOps recs today r).length) :
    DbOp.commit ∉ (ruleOps recs today r).take m := by
  intro hmem
  rw [ruleOps_length] at hm
  have hsub : (ruleOps recs today r).take m =
      (DbOp.queryRule r :: (ruleViolations recs today r).map DbOp.insertLog).take m := by
    have hdec : ruleOps recs today r =
        (DbOp.queryRule r :: (ruleViolations recs today r).map DbOp.insertLog)
          ++ [DbOp.commit] := by
      simp [ruleOps]
    rw [hdec, List.take_append_eq_append_take]
    have hz : m - (DbOp.queryRule r ::
        (ruleViolations recs today r).map DbOp.insertLog).length = 0 := by
      simp only [List.length_cons, List.length_map]
      omega
    rw [hz]
    simp
  rw [hsub] at hmem
  have hmem2 := List.take_subset m _ hmem
  rcases List.mem_cons.mp hmem2 with h | h
  · cases h
  · rcases List.mem_map.mp h with ⟨v, _, hv⟩
    cases hv

/-! ### Run-level lemmas -/

theorem runBody_complete (s : ConnState) (today : Int) :
    runBody s today none =
      Except.ok ⟨s.records, logAll s.records today, logAll s.records today⟩ := by
  rw [runBody, execFrom_none]
  congr 1
  rw [runOps, List.foldl_cons, List.foldl_cons]
  have h0 : applyOp (applyOp (rollback s) DbOp.truncateLog) DbOp.commit
      = ⟨s.records, [], []⟩ := rfl
  rw [h0]
  simp only [ruleOrder, List.map_cons, List.map_nil, List.flatten_cons,
    List.flatten_nil, List.foldl_append, foldl_ruleOps, List.append_nil,
    List.foldl_nil, List.nil_append]
  simp [logAll, ruleOrder, List.append_assoc]

theorem run_complete (s : ConnState) (today : Int) :
    run_data_validations s today none =
      (none, ⟨s.records, logAll s.records today, logAll s.records today⟩) := by
  rw [run_data_validations, runBody_complete]

theorem exec_flatten_fail (R : List Record) (today : Int) (l : List RuleId) :
    ∀ (k i j : Nat) (s : ConnState),
    s.tlog = s.committedLog →
    k < l.length →
    i + (((l.take k).map (ruleOps R today)).flatten).length ≤ j →
    j < i + (((l.take (k + 1)).map (ruleOps R today)).flatten).length →
    execFrom i (some j) s ((l.map (ruleOps R today)).flatten) =
      Except.error ⟨s.records,
        s.committedLog ++ ((l.take k).map (ruleViolations R today)).flatten,
        s.committedLog ++ ((l.take k).map (ruleViolations R today)).flatten⟩ := by
  induction l with
  | nil =>
      intro k i j s _ hk
      simp at hk
  | cons r rest ih =>
      intro k i j s hsync hk h1 h2
      rw [List.map_cons, List.flatten_cons]
      cases k with
      | zero =>
          simp only [List.take_zero, List.map_nil, List.flatten_nil,
            List.length_nil, Nat.add_zero] at h1
          simp only [List.take_succ_cons, List.take_zero, List.map_cons,
            List.map_nil, List.flatten_cons, List.flatten_nil, List.append_nil,
            List.length_append] at h2
          rw [exec_append_err _ _ _ _ _ _ (execFrom_hit _ i j s h1 h2)]
          have hm : j - i < (ruleOps R today r).length := by omega
          have hcl : (((ruleOps R today r).take (j - i)).foldl applyOp s).committedLog
              = s.committedLog :=
            foldl_no_commit _ s (commit_not_in_front R today r (j - i) hm)
          have hrec : (((ruleOps R today r).take (j - i)).foldl applyOp s).records
              = s.records := foldl_records _ s
          have hroll : rollback (((ruleOps R today r).take (j - i)).foldl applyOp s)
              = ⟨s.records, s.committedLog, s.committedLog⟩ := by
            rw [show ∀ x : ConnState, rollback x =
                ⟨x.records, x.committedLog, x.committedLog⟩ from fun _ => rfl, hcl, hrec]
          rw [hroll]
          simp
      | succ k =>
          simp only [List.take_succ_cons, List.map_cons, List.flatten_cons,
            List.length_append] at h1 h2
          have hmiss : i + (ruleOps R today r).length ≤ j := by omega
          have hok : execFrom i (some j) s (ruleOps R today r) =
              Except.ok ⟨s.records, s.tlog ++ ruleViolations R today r,
                s.tlog ++ ruleViolations R today r⟩ := by
            rw [execFrom_miss_high _ i j s hmiss, foldl_ruleOps]
          rw [exec_append_ok _ _ _ _ _ _ hok]
          have hlen : k < rest.length := by
            simp only [List.length_cons] at hk; omega
          have := ih k (i + (ruleOps R today r).length) j
            ⟨s.records, s.tlog ++ ruleViolations R today r,
              s.tlog ++ ruleViolations R today r⟩ rfl hlen (by omega) (by omega)
          rw [this, hsync]
          simp [List.append_assoc]

theorem runBody_fail_in_rule (s : ConnState) (today : Int) (k i : Nat)
    (hk : k < 5)
    (h1 : segStart s.records today k ≤ i)
    (h2 : i < segStart s.records today (k + 1)) :
    runBody s today (some i) =
      Except.error ⟨s.records, logUpTo s.records today k,
        logUpTo s.records today k⟩ := by
  have hi2 : 2 ≤ i := by
    have h3 : 2 ≤ segStart s.records today k := by rw [segStart]; omega
    omega
  have e0 : (some i : Option Nat) ≠ some 0 := by intro h; cases h; omega
  have e1 : (some i : Option Nat) ≠ some 1 := by intro h; cases h; omega
  rw [runBody, runOps, execFrom, if_neg e0, execFrom, if_neg e1]
  have h0 : applyOp (applyOp (rollback s) DbOp.truncateLog) DbOp.commit
      = ⟨s.records, [], []⟩ := rfl
  rw [h0]
  rw [exec_flatten_fail s.records today ruleOrder k 2 i ⟨s.records, [], []⟩ rfl
    (by simpa [ruleOrder] using hk)
    (by rw [segStart] at h1; omega)
    (by rw [segStart] at h2; omega)]
  rw [logUpTo]
  simp

theorem run_fail_in_rule (s : ConnState) (today : Int) (k i : Nat)
    (hk : k < 5)
    (h1 : segStart s.records today k ≤ i)
    (h2 : i < segStart s.records today (k + 1)) :
    run_data_validations s today (some i) =
      (none, ⟨s.records, logUpTo s.records today k, logUpTo s.records today k⟩) := by
  rw [run_data_validations, runBody_fail_in_rule s today k i hk h1 h2]

/-! ### Further helper lemmas -/

theorem applyOp_records (s : ConnState) (op : DbOp) :
    (applyOp s op).records = s.records := by
  cases op <;> rfl

theorem execFrom_records (l : List DbOp) : ∀ (i : Nat) (f : Option Nat) (s : ConnState),
    (∀ s1, execFrom i f s l = Except.ok s1 → s1.records = s.records) ∧
    (∀ e, execFrom i f s l = Except.error e → e.records = s.records) := by
  induction l with
  | nil =>
      intro i f s
      refine ⟨fun s1 h => ?_, fun e h => ?_⟩
      · cases h; rfl
      · cases h
  | cons op rest ih =>
      intro i f s
      by_cases hf : f = some i
      · subst hf
        refine ⟨fun s1 h => ?_, fun e h => ?_⟩
        · rw [execFrom, if_pos rfl] at h; cases h
        · rw [execFrom, if_pos rfl] at h
          cases h; rfl
      · refine ⟨fun s1 h => ?_, fun e h => ?_⟩
        · rw [execFrom, if_neg hf] at h
          have := (ih (i + 1) f (applyOp s op)).1 s1 h
          rw [this, applyOp_records]
        · rw [execFrom, if_neg hf] at h
          have := (ih (i + 1) f (applyOp s op)).2 e h
          rw [this, applyOp_records]

theorem run_records (s : ConnState) (today : Int) (failAt : Option Nat) :
    (run_data_validations s today failAt).2.records = s.records := by
  rw [run_data_validations]
  rcases h : runBody s today failAt with s1 | s1
  · rw [runBody] at h
    have := (execFrom_records _ 0 failAt (rollback s)).2 s1 h
    exact this
  · rw [runBody] at h
    have := (execFrom_records _ 0 failAt (rollback s)).1 s1 h
    exact this

theorem filterMap_query_insert (vs : List Violation) :
    (vs.map DbOp.insertLog).filterMap queryOf = [] := by
  induction vs with
  | nil => rfl
  | cons v rest ih => simp [List.filterMap_cons, queryOf, ih]

theorem filterMap_query_ruleOps (recs : List Record) (today : Int) (r : RuleId) :
    (ruleOps recs today r).filterMap queryOf = [r] := by
  simp [ruleOps, List.filterMap_cons, List.filterMap_append, queryOf,
    filterMap_query_insert]

theorem filterMap_query_runOps (recs : List Record) (today : Int) :
    (runOps recs today).filterMap queryOf = ruleOrder := by
  simp [runOps, List.filterMap_cons, queryOf, ruleOrder, List.filterMap_append,
    filterMap_query_ruleOps]

theorem countP_tid_le_one (tid : String) (q : Record → Bool) :
    ∀ R : List Record, (R.map Record.transaction_id).Nodup →
    R.countP (fun r => (r.transaction_id == tid) && q r) ≤ 1 := by
  intro R
  induction R with
  | nil => intro _; simp
  | cons r R' ih =>
      intro h
      rw [List.map_cons, List.nodup_cons] at h
      rw [List.countP_cons]
      by_cases hr : ((r.transaction_id == tid) && q r) = true
      · have hz : R'.countP (fun r => (r.transaction_id == tid) && q r) = 0 := by
          rw [List.countP_eq_zero]
          intro r' hr' hp
          simp only [Bool.and_eq_true, beq_iff_eq] at hp hr
          exact h.1 (by
            rw [hr.1, ← hp.1]
            exact List.mem_map_of_mem _ hr')
        simp [hr, hz]
      · have hle := ih h.2
        have hz : (if ((r.transaction_id == tid) && q r) = true then 1 else 0) = 0 := by
          simp [hr]
        rw [hz]
        omega

theorem countP_tid_eq_one_iff (tid : String) (q : Record → Bool)
    (R : List Record) (h : (R.map Record.transaction_id).Nodup) :
    R.countP (fun r => (r.transaction_id == tid) && q r) = 1 ↔
      ∃ r ∈ R, r.transaction_id = tid ∧ q r = true := by
  constructor
  · intro h1
    have hp : 0 < R.countP (fun r => (r.transaction_id == tid) && q r) := by omega
    rcases List.countP_pos_iff.mp hp with ⟨r, hr, hpr⟩
    simp only [Bool.and_eq_true, beq_iff_eq] at hpr
    exact ⟨r, hr, hpr.1, hpr.2⟩
  · rintro ⟨r, hr, h1, h2⟩
    have hp : 0 < R.countP (fun r => (r.transaction_id == tid) && q r) :=
      List.countP_pos_iff.mpr ⟨r, hr, by
        simp only [Bool.and_eq_true, beq_iff_eq]
        exact ⟨h1, h2⟩⟩
    have hle := countP_tid_le_one tid q R h
    omega

theorem countP_logAll_amountNulo (R : List Record) (today : Int) (tid : String) :
    (logAll R today).countP
      (fun v => (v.validation_rule == "Amount Nulo") && (v.transaction_id == tid)) =
    R.countP (fun r => (r.transaction_id == tid) && r.amount.isNone) := by
  simp only [logAll, ruleOrder, List.map_cons, List.map_nil, List.flatten_cons,
    List.flatten_nil, List.append_nil, List.countP_append, ruleViolations,
    List.countP_map, List.countP_filter]
  simp [Function.comp, amountNuloViolation, accountIdNuloViolation,
    amountNegativoViolation, dataFuturaViolation, categoriaInvalidaViolation,
    Bool.and_comm]

theorem mem_logAll_cat (R : List Record) (today : Int) (v : Violation) :
    (v ∈ logAll R today ∧ v.validation_rule = "Categoria Inválida") ↔
    ∃ r ∈ R, invalidCategoryP r = true ∧ v = categoriaInvalidaViolation r := by
  simp only [logAll, ruleOrder, List.map_cons, List.map_nil, List.flatten_cons,
    List.flatten_nil, List.append_nil, List.mem_append, List.mem_map,
    List.mem_filter, ruleViolations]
  constructor
  · rintro ⟨h | h | h | h | h, hrule⟩
    · rcases h with ⟨r, hr, rfl⟩
      exact absurd hrule (by simp [amountNuloViolation])
    · rcases h with ⟨r, hr, rfl⟩
      exact absurd hrule (by simp [accountIdNuloViolation])
    · rcases h with ⟨r, hr, rfl⟩
      exact absurd hrule (by simp [amountNegativoViolation])
    · rcases h with ⟨r, hr, rfl⟩
      exact absurd hrule (by simp [dataFuturaViolation])
    · rcases h with ⟨r, ⟨hrR, hrP⟩, rfl⟩
      exact ⟨r, hrR, hrP, rfl⟩
  · rintro ⟨r, hr, hp, rfl⟩
    exact ⟨Or.inr (Or.inr (Or.inr (Or.inr ⟨r, ⟨hr, hp⟩, rfl⟩))), rfl⟩

theorem invalidCategoryP_iff (r : Record) :
    invalidCategoryP r = true ↔
      (r.category = none ∨ ∃ c, r.category = some c ∧ c ∉ valid_categories) := by
  cases hc : r.category with
  | none => simp [invalidCategoryP, hc]
  | some c => simp [invalidCategoryP, hc]

theorem amountNegativo_mem_logAll (R : List Record) (today : Int) (r : Record)
    (hr : r ∈ R) (hp : amountNegP r = true) :
    amountNegativoViolation r ∈ logAll R today := by
  simp only [logAll, ruleOrder, List.map_cons, List.map_nil, List.flatten_cons,
    List.flatten_nil, List.append_nil, List.mem_append]
  right; right; left
  exact List.mem_map_of_mem _ (List.mem_filter.mpr ⟨hr, hp⟩)

theorem categoriaInvalida_mem_logAll (R : List Record) (today : Int) (r : Record)
    (hr : r ∈ R) (hp : invalidCategoryP r = true) :
    categoriaInvalidaViolation r ∈ logAll R today := by
  simp only [logAll, ruleOrder, List.map_cons, List.map_nil, List.flatten_cons,
    List.flatten_nil, List.append_nil, List.mem_append]
  right; right; right; right
  exact List.mem_map_of_mem _ (List.mem_filter.mpr ⟨hr, hp⟩)

theorem run_complete_log (s : ConnState) (today : Int) :
    (run_data_validations s today none).2.committedLog = logAll s.records today := by
  rw [run_complete]

theorem runBody_fail_at_zero (s : ConnState) (today : Int) :
    runBody s today (some 0) =
      Except.error ⟨s.records, s.committedLog, s.committedLog⟩ := by
  rw [runBody, runOps, execFrom, if_pos rfl]
  rfl

theorem runBody_fail_at_one (s : ConnState) (today : Int) :
    runBody s today (some 1) =
      Except.error ⟨s.records, s.committedLog, s.committedLog⟩ := by
  have e0 : (some 1 : Option Nat) ≠ some 0 := by decide
  rw [runBody, runOps, execFrom, if_neg e0, execFrom, if_pos rfl]
  rfl

theorem segStart_zero (R : List Record) (today : Int) :
    segStart R today 0 = 2 := rfl

theorem runOps_length_eq_segStart_five (R : List Record) (today : Int) :
    (runOps R today).length = segStart R today 5 := by
  rw [runOps, segStart]
  simp [ruleOrder]
  omega

/-! ### Claim theorems -/

/-- Claim C1: in a record store with unique transaction_id, after a completed
run the log holds at most one "Amount Nulo" row per transaction_id, and it
holds exactly one such row for a transaction_id iff the record with that id
has a null amount (no false positives, no false negatives). -/
theorem amountNulo_exactly_one_violation_iff (s : ConnState) (today : Int)
    (h : (s.records.map Record.transaction_id).Nodup) (tid : String) :
    (run_data_validations s today none).2.committedLog.countP
        (fun v => (v.validation_rule == "Amount Nulo") && (v.transaction_id == tid)) ≤ 1 ∧
    ((run_data_validations s today none).2.committedLog.countP
        (fun v => (v.validation_rule == "Amount Nulo") && (v.transaction_id == tid)) = 1 ↔
      ∃ r ∈ s.records, r.transaction_id = tid ∧ r.amount = none) := by
  rw [run_complete_log, countP_logAll_amountNulo]
  refine ⟨countP_tid_le_one tid _ s.records h, ?_⟩
  rw [countP_tid_eq_one_iff tid _ s.records h]
  constructor
  · rintro ⟨r, hr, h1, h2⟩
    exact ⟨r, hr, h1, Option.isNone_iff_eq_none.mp h2⟩
  · rintro ⟨r, hr, h1, h2⟩
    exact ⟨r, hr, h1, by simp [h2]⟩

/-- Witness for C1 at the sample store and transaction_id t1. -/
theorem amountNulo_exactly_one_violation_iff_witness :
    (sampleState.records.map Record.transaction_id).Nodup ∧
    ((run_data_validations sampleState 150 none).2.committedLog.countP
        (fun v => (v.validation_rule == "Amount Nulo") && (v.transaction_id == "t1")) ≤ 1 ∧
     ((run_data_validations sampleState 150 none).2.committedLog.countP
        (fun v => (v.validation_rule == "Amount Nulo") && (v.transaction_id == "t1")) = 1 ↔
       ∃ r ∈ sampleState.records, r.transaction_id = "t1" ∧ r.amount = none)) :=
  ⟨by decide, amountNulo_exactly_one_violation_iff sampleState 150 (by decide) "t1"⟩

/-- Claim C4: running the validator twice in a row over an unchanged record
store and unchanged current date leaves exactly the database state of the
first run (same log rows, so the same count per rule). -/
theorem rerun_yields_identical_log (s : ConnState) (today : Int) :
    (run_data_validations ((run_data_validations s today none).2) today none).2 =
      (run_data_validations s today none).2 := by
  rw [run_complete s today, run_complete]

/-- Claim C5: each rule's violations are committed when the rule finishes;
a run that fails at statement `i` inside rule block `k` leaves exactly the
rows of rules `0..k-1` in the log, so every row committed by an earlier
rule survives the failure. -/
theorem per_rule_commits_survive_failure (s : ConnState) (today : Int) (k i : Nat)
    (hk : k < 5) (h1 : segStart s.records today k ≤ i)
    (h2 : i < segStart s.records today (k + 1)) :
    (run_data_validations s today (some i)).2.committedLog =
      logUpTo s.records today k ∧
    ∀ rl ∈ ruleOrder.take k, ∀ v ∈ ruleViolations s.records today rl,
      v ∈ (run_data_validations s today (some i)).2.committedLog := by
  have hmain := run_fail_in_rule s today k i hk h1 h2
  rw [hmain]
  refine ⟨rfl, ?_⟩
  intro rl hrl v hv
  show v ∈ logUpTo s.records today k
  rw [logUpTo]
  exact List.mem_flatten.mpr
    ⟨ruleViolations s.records today rl, List.mem_map_of_mem _ hrl, hv⟩

/-- Witness for C5: failure at statement 9, inside rule block 2, on the
sample store. -/
theorem per_rule_commits_survive_failure_witness :
    (2 < 5 ∧ segStart sampleState.records 150 2 ≤ 9 ∧
      9 < segStart sampleState.records 150 3) ∧
    ((run_data_validations sampleState 150 (some 9)).2.committedLog =
        logUpTo sampleState.records 150 2 ∧
     ∀ rl ∈ ruleOrder.take 2, ∀ v ∈ ruleViolations sampleState.records 150 rl,
       v ∈ (run_data_validations sampleState 150 (some 9)).2.committedLog) :=
  ⟨⟨by decide, by decide, by decide⟩,
   per_rule_commits_survive_failure sampleState 150 2 9 (by decide) (by decide)
     (by decide)⟩

/-- Counterexample to claim C2 as stated: at the sample store, the rule-1
query (statement index 2 of the trace, which the run reaches) fails, yet
`run_data_validations` returns normally — the exception component visible
to the caller is `none`, not an error signal. -/
theorem store_failure_no_error_signal_cex :
    2 < (runOps sampleState.records 150).length ∧
    (run_data_validations sampleState 150 (some 2)).1 = none := by
  constructor
  · decide
  · decide

/-- Claim C2 (amended): whenever any store statement the run reaches — the
TRUNCATE, a commit, a rule SELECT or an INSERT — fails, the failure raises
inside the `with` block, aborting the remaining rule sequence, and the
violations already committed are retained: the log keeps its pre-run
contents when the failure hits the truncate or its commit, and keeps
exactly the rows of rules before block `k` when the failure hits a
statement of rule block `k`; but the blanket `except` handlers catch the
exception, so `run_data_validations` returns normally and no error signal
reaches the caller. -/
theorem store_failure_aborts_is_caught_and_retains (s : ConnState)
    (today : Int) (i : Nat) (hi : i < (runOps s.records today).length) :
    ∃ st : ConnState,
      runBody s today (some i) = Except.error st ∧
      run_data_validations s today (some i) = (none, st) ∧
      st.records = s.records ∧
      ((i < 2 ∧ st.committedLog = s.committedLog) ∨
       ∃ k, k < 5 ∧ segStart s.records today k ≤ i ∧
         i < segStart s.records today (k + 1) ∧
         st.committedLog = logUpTo s.records today k) := by
  by_cases h0 : i = 0
  · subst h0
    refine ⟨⟨s.records, s.committedLog, s.committedLog⟩,
      runBody_fail_at_zero s today, ?_, rfl, Or.inl ⟨by omega, rfl⟩⟩
    rw [run_data_validations, runBody_fail_at_zero]
  by_cases h1 : i = 1
  · subst h1
    refine ⟨⟨s.records, s.committedLog, s.committedLog⟩,
      runBody_fail_at_one s today, ?_, rfl, Or.inl ⟨by omega, rfl⟩⟩
    rw [run_data_validations, runBody_fail_at_one]
  have hi2 : 2 ≤ i := by omega
  have hlen : i < segStart s.records today 5 := by
    rw [← runOps_length_eq_segStart_five]
    exact hi
  have hblock : ∃ k, k < 5 ∧ segStart s.records today k ≤ i ∧
      i < segStart s.records today (k + 1) := by
    have hz := segStart_zero s.records today
    by_cases hb1 : i < segStart s.records today 1
    · exact ⟨0, by omega, by omega, hb1⟩
    by_cases hb2 : i < segStart s.records today 2
    · exact ⟨1, by omega, by omega, hb2⟩
    by_cases hb3 : i < segStart s.records today 3
    · exact ⟨2, by omega, by omega, hb3⟩
    by_cases hb4 : i < segStart s.records today 4
    · exact ⟨3, by omega, by omega, hb4⟩
    exact ⟨4, by omega, by omega, hlen⟩
  rcases hblock with ⟨k, hk, hA, hB⟩
  exact ⟨⟨s.records, logUpTo s.records today k, logUpTo s.records today k⟩,
    runBody_fail_in_rule s today k i hk hA hB,
    run_fail_in_rule s today k i hk hA hB, rfl,
    Or.inr ⟨k, hk, hA, hB, rfl⟩⟩

/-- Witness for the amended C2: on the sample store, failures of the
TRUNCATE itself (statement 0), of its commit (statement 1) and of the
rule-1 query (statement 2) are all reached, caught and retention-correct. -/
theorem store_failure_aborts_is_caught_and_retains_witness :
    (0 < (runOps sampleState.records 150).length ∧
     1 < (runOps sampleState.records 150).length ∧
     2 < (runOps sampleState.records 150).length) ∧
    (∃ st : ConnState,
      runBody sampleState 150 (some 0) = Except.error st ∧
      run_data_validations sampleState 150 (some 0) = (none, st) ∧
      st.records = sampleState.records ∧
      ((0 < 2 ∧ st.committedLog = sampleState.committedLog) ∨
       ∃ k, k < 5 ∧ segStart sampleState.records 150 k ≤ 0 ∧
         0 < segStart sampleState.records 150 (k + 1) ∧
         st.committedLog = logUpTo sampleState.records 150 k)) ∧
    (∃ st : ConnState,
      runBody sampleState 150 (some 1) = Except.error st ∧
      run_data_validations sampleState 150 (some 1) = (none, st) ∧
      st.records = sampleState.records ∧
      ((1 < 2 ∧ st.committedLog = sampleState.committedLog) ∨
       ∃ k, k < 5 ∧ segStart sampleState.records 150 k ≤ 1 ∧
         1 < segStart sampleState.records 150 (k + 1) ∧
         st.committedLog = logUpTo sampleState.records 150 k)) ∧
    (∃ st : ConnState,
      runBody sampleState 150 (some 2) = Except.error st ∧
      run_data_validations sampleState 150 (some 2) = (none, st) ∧
      st.records = sampleState.records ∧
      ((2 < 2 ∧ st.committedLog = sampleState.committedLog) ∨
       ∃ k, k < 5 ∧ segStart sampleState.records 150 k ≤ 2 ∧
         2 < segStart sampleState.records 150 (k + 1) ∧
         st.committedLog = logUpTo sampleState.records 150 k)) :=
  ⟨⟨by decide, by decide, by decide⟩,
   store_failure_aborts_is_caught_and_retains sampleState 150 0 (by decide),
   store_failure_aborts_is_caught_and_retains sampleState 150 1 (by decide),
   store_failure_aborts_is_caught_and_retains sampleState 150 2 (by decide)⟩

/-- Claim C10: the trace clears the log and commits the clear (statements 0
and 1) before the first rule query (every query sits at index 2 or later),
so a run that fails anywhere inside rule block 0 leaves the log empty —
the previous run's rows are already destroyed. -/
theorem failed_first_rule_leaves_log_empty (s : ConnState) (today : Int)
    (i : Nat) (h1 : 2 ≤ i) (h2 : i < segStart s.records today 1) :
    (runOps s.records today).take 2 = [DbOp.truncateLog, DbOp.commit] ∧
    (∀ n r, (runOps s.records today)[n]? = some (DbOp.queryRule r) → 2 ≤ n) ∧
    (run_data_validations s today (some i)).2.committedLog = [] := by
  refine ⟨rfl, ?_, ?_⟩
  · intro n r h
    match n with
    | 0 => simp [runOps] at h
    | 1 => simp [runOps] at h
    | (n + 2) => omega
  · have h1a : segStart s.records today 0 ≤ i := by
      simpa [segStart] using h1
    have hmain := run_fail_in_rule s today 0 i (by omega) h1a h2
    rw [hmain]
    rfl

/-- Witness for C10: failure at statement 3 (the first INSERT of rule 1)
on the sample store. -/
theorem failed_first_rule_leaves_log_empty_witness :
    (2 ≤ 3 ∧ 3 < segStart sampleState.records 150 1) ∧
    ((runOps sampleState.records 150).take 2 =
        [DbOp.truncateLog, DbOp.commit] ∧
     (∀ n r, (runOps sampleState.records 150)[n]? =
        some (DbOp.queryRule r) → 2 ≤ n) ∧
     (run_data_validations sampleState 150 (some 3)).2.committedLog = []) :=
  ⟨⟨by decide, by decide⟩,
   failed_first_rule_leaves_log_empty sampleState 150 3 (by decide) (by decide)⟩

/-- Claim C3: after a completed run, some "Categoria Inválida" row exists
for a transaction_id iff some record with that id has a null category or a
category outside the fixed valid set; every such record yields a row whose
message interpolates its (possibly null) category value. -/
theorem categoriaInvalida_violations_characterized (s : ConnState) (today : Int) :
    (∀ tid : String,
      (∃ v ∈ (run_data_validations s today none).2.committedLog,
          v.transaction_id = tid ∧ v.validation_rule = "Categoria Inválida") ↔
      (∃ r ∈ s.records, r.transaction_id = tid ∧
        (r.category = none ∨ ∃ c, r.category = some c ∧ c ∉ valid_categories))) ∧
    (∀ r ∈ s.records,
      (r.category = none ∨ ∃ c, r.category = some c ∧ c ∉ valid_categories) →
      ∃ v ∈ (run_data_validations s today none).2.committedLog,
        v.transaction_id = r.transaction_id ∧
        v.validation_rule = "Categoria Inválida" ∧
        ∃ pre post, v.error_message = pre ++ pyStrOpt r.category ++ post) := by
  constructor
  · intro tid
    constructor
    · rintro ⟨v, hv, htid, hrule⟩
      rw [run_complete_log] at hv
      rcases (mem_logAll_cat s.records today v).mp ⟨hv, hrule⟩ with ⟨r, hrR, hp, rfl⟩
      refine ⟨r, hrR, ?_, (invalidCategoryP_iff r).mp hp⟩
      simpa [categoriaInvalidaViolation] using htid
    · rintro ⟨r, hrR, htid, hinv⟩
      refine ⟨categoriaInvalidaViolation r, ?_, htid, rfl⟩
      rw [run_complete_log]
      exact categoriaInvalida_mem_logAll s.records today r hrR
        ((invalidCategoryP_iff r).mpr hinv)
  · intro r hrR hinv
    refine ⟨categoriaInvalidaViolation r, ?_, rfl, rfl,
      "Categoria da transação (category) é inválida: \x27", "\x27.", rfl⟩
    rw [run_complete_log]
    exact categoriaInvalida_mem_logAll s.records today r hrR
      ((invalidCategoryP_iff r).mpr hinv)

/-- Witness for C3: the sample record with category CATEGORIA_INVALIDA
produces a "Categoria Inválida" row for its transaction_id t3. -/
theorem categoriaInvalida_violations_characterized_witness :
    ∃ v ∈ (run_data_validations sampleState 150 none).2.committedLog,
      v.transaction_id = "t3" ∧ v.validation_rule = "Categoria Inválida" :=
  ((categoriaInvalida_violations_characterized sampleState 150).1 "t3").mpr
    ⟨sampleRec3, by decide, rfl, Or.inr ⟨"CATEGORIA_INVALIDA", rfl, by decide⟩⟩

/-- Claim C6: every record with a negative amount yields, in a completed
run, an "Amount Negativo" row whose message contains the exact rendered
amount; the amount -50.00 renders as "-50.00", which contains "-50.0". -/
theorem amountNegativo_message_contains_amount (s : ConnState) (today : Int) :
    (∀ r ∈ s.records, ∀ a : Int, r.amount = some a → a < 0 →
      ∃ v ∈ (run_data_validations s today none).2.committedLog,
        v.transaction_id = r.transaction_id ∧
        v.validation_rule = "Amount Negativo" ∧
        ∃ pre post, v.error_message = pre ++ renderAmount a ++ post) ∧
    renderAmount (-5000) = "-50.0" ++ "0" := by
  constructor
  · intro r hr a hsome ha
    refine ⟨amountNegativoViolation r, ?_, rfl, rfl,
      "Valor da transação (amount) é negativo: ", ".", ?_⟩
    · rw [run_complete_log]
      exact amountNegativo_mem_logAll s.records today r hr
        (by simp [amountNegP, hsome, ha])
    · simp [amountNegativoViolation, hsome, renderAmountOpt]
  · decide

/-- Witness for C6 at the sample record with amount -50.00. -/
theorem amountNegativo_message_contains_amount_witness :
    (sampleRec2 ∈ sampleState.records ∧ sampleRec2.amount = some (-5000) ∧
      (-5000 : Int) < 0) ∧
    ∃ v ∈ (run_data_validations sampleState 150 none).2.committedLog,
      v.transaction_id = sampleRec2.transaction_id ∧
      v.validation_rule = "Amount Negativo" ∧
      ∃ pre post, v.error_message = pre ++ renderAmount (-5000) ++ post :=
  ⟨⟨by decide, rfl, by decide⟩,
   (amountNegativo_message_contains_amount sampleState 150).1 sampleRec2
     (by decide) (-5000) rfl (by decide)⟩

/-- Claim C7: the statement trace opens with the log truncate and its
commit, every INSERT comes after them, and the rule queries appear exactly
once each, in the fixed source order — no rule skipped or reordered. -/
theorem clear_first_then_rules_in_order (R : List Record) (today : Int) :
    (runOps R today).take 2 = [DbOp.truncateLog, DbOp.commit] ∧
    (runOps R today).filterMap queryOf = ruleOrder ∧
    (∀ n v, (runOps R today)[n]? = some (DbOp.insertLog v) → 2 ≤ n) := by
  refine ⟨rfl, filterMap_query_runOps R today, ?_⟩
  intro n v h
  match n with
  | 0 => simp [runOps] at h
  | 1 => simp [runOps] at h
  | (n + 2) => omega

/-- Witness for C7 on the sample store; statement 3 is an INSERT and sits
after the truncate-and-commit prefix. -/
theorem clear_first_then_rules_in_order_witness :
    ((runOps sampleState.records 150).take 2 =
        [DbOp.truncateLog, DbOp.commit] ∧
     (runOps sampleState.records 150).filterMap queryOf = ruleOrder) ∧
    2 ≤ 3 :=
  ⟨⟨(clear_first_then_rules_in_order sampleState.records 150).1,
    (clear_first_then_rules_in_order sampleState.records 150).2.1⟩,
   (clear_first_then_rules_in_order sampleState.records 150).2.2 3
     (amountNuloViolation sampleRec1) (by decide)⟩

/-- Claim C8: no run — completed or failed — changes the record table, and
in the statement trace every write targets the log table while the record
table is only ever read. -/
theorem validator_never_mutates_record_store (s : ConnState) (today : Int)
    (failAt : Option Nat) :
    (run_data_validations s today failAt).2.records = s.records ∧
    (∀ op ∈ runOps s.records today, op.isWrite = true →
        op.touches = some StoreTable.logTable) ∧
    (∀ op ∈ runOps s.records today, op.touches = some StoreTable.recordTable →
        op.isWrite = false) := by
  refine ⟨run_records s today failAt, ?_, ?_⟩
  · intro op _ hw
    cases op with
    | truncateLog => rfl
    | commit => exact Bool.noConfusion hw
    | queryRule r => exact Bool.noConfusion hw
    | insertLog v => rfl
  · intro op _ ht
    cases op with
    | truncateLog => exact StoreTable.noConfusion (Option.some.inj ht)
    | commit => exact Option.noConfusion ht
    | queryRule r => rfl
    | insertLog v => exact StoreTable.noConfusion (Option.some.inj ht)

/-- Witness for C8: a run failing at statement 5 preserves the sample
record table; the truncate writes to the log table and the rule-1 query
does not write. -/
theorem validator_never_mutates_record_store_witness :
    (run_data_validations sampleState 150 (some 5)).2.records =
      sampleState.records ∧
    DbOp.truncateLog.touches = some StoreTable.logTable ∧
    (DbOp.queryRule RuleId.amountNulo).isWrite = false :=
  ⟨(validator_never_mutates_record_store sampleState 150 (some 5)).1,
   (validator_never_mutates_record_store sampleState 150 (some 5)).2.1
     DbOp.truncateLog (by decide) rfl,
   (validator_never_mutates_record_store sampleState 150 (some 5)).2.2
     (DbOp.queryRule RuleId.amountNulo) (by decide) rfl⟩

/-- Claim C9: a record with a null category yields a "Categoria Inválida"
row whose message interpolates the null as the literal text None inside
single quotes, ending with the characters reading quote-None-quote-dot. -/
theorem null_category_rendered_as_None (s : ConnState) (today : Int) :
    ∀ r ∈ s.records, r.category = none →
      categoriaInvalidaViolation r ∈
        (run_data_validations s today none).2.committedLog ∧
      (categoriaInvalidaViolation r).error_message =
        "Categoria da transação (category) é inválida: \x27None\x27." ∧
      ∃ pre, (categoriaInvalidaViolation r).error_message =
        pre ++ "\x27None\x27." := by
  intro r hr hc
  refine ⟨?_, ?_, "Categoria da transação (category) é inválida: ", ?_⟩
  · rw [run_complete_log]
    exact categoriaInvalida_mem_logAll s.records today r hr
      (by simp [invalidCategoryP, hc])
  · simp only [categoriaInvalidaViolation, hc, pyStrOpt]
    decide
  · simp only [categoriaInvalidaViolation, hc, pyStrOpt]
    decide

/-- Witness for C9 at the sample record with a null category. -/
theorem null_category_rendered_as_None_witness :
    (sampleRec2 ∈ sampleState.records ∧ sampleRec2.category = none) ∧
    (categoriaInvalidaViolation sampleRec2 ∈
        (run_data_validations sampleState 150 none).2.committedLog ∧
     (categoriaInvalidaViolation sampleRec2).error_message =
        "Categoria da transação (category) é inválida: \x27None\x27." ∧
     ∃ pre, (categoriaInvalidaViolation sampleRec2).error_message =
        pre ++ "\x27None\x27.") :=
  ⟨⟨by decide, rfl⟩,
   null_category_rendered_as_None sampleState 150 sampleRec2 (by decide) rfl⟩
